import Mathlib

/-!
Verification of the PiFrame asynchronous-download pipeline
(src/client/main.c): job submission (DownloadNew), the worker thread
(curlThread with its cURL callbacks onCURLDownloadSegment and
onCURLDownloadProgress), the foreground dispatcher tick
(onDownloadQueuePoll), and the chunk-buffer recycle path
(downloadRecycleProgressItems).

Modelling conventions:
  - size_t values are Nat with explicit reduction modulo 2^64 at the
    arithmetic sites where C wraps (unsigned subtraction, additions into
    size_t fields); gDownload.count is an unsigned int, modulo 2^32.
  - GAsyncQueue is a Lean List in pop order: the head is the item the
    next pop returns.  g_async_queue_push appends at the tail;
    g_async_queue_push_front (which in GLib, and in the patch at
    src/client/main.c lines 111-123, does g_queue_push_tail, the end
    g_async_queue_pop pops from) conses at the head.
  - heap pointers are modelled as ids: Download structs by a handle id,
    malloc-ed chunk buffers by a chunk id drawn from a counter.
  - callback function pointers are modelled by presence booleans on the
    handle; a callback invocation is an emitted event.
  - the cURL transfer is modelled as the list of callbacks it performs:
    write callbacks (count, elements) and progress callbacks
    (dlTotal, dlCurrent), already cast to non-negative integers.
  - the while loops of the C code that recurse on a queue that only
    shrinks are structural recursions; the segment-slicing while loop of
    onCURLDownloadSegment and the results-drain while loop of
    onDownloadQueuePoll are fuel-indexed, with a sufficiency theorem for
    the former (segLoop_fuel_sufficient) showing the fuel chosen at the
    call site always completes the loop, and the latter kept fuel-indexed
    because that loop can genuinely fail to terminate (see the livelock
    theorem for claim C2).
-/

/-- 2^64: the size_t modulus. -/
def W64 : Nat := 2 ^ 64

/-- 2^32: the unsigned int modulus (gDownload.count). -/
def W32 : Nat := 2 ^ 32

/-- kMaxChunksize from src/client/main.c line 327: 128 KiB chunk capacity. -/
def kMaxChunksize : Nat := 128 * 1024

/-- CURLE_OK: the cURL success result code, numerically 0. -/
def CURLE_OK : Int := 0

/-- Unsigned 64-bit subtraction, as C computes a - b on size_t. -/
def usub64 (a b : Nat) : Nat := (a + W64 - b) % W64

/-- Unsigned 32-bit decrement, as C computes gDownload.count--. -/
def decr32 (n : Nat) : Nat := (n + (W32 - 1)) % W32

/-- A malloc-ed chunk buffer (DownloadProgressItem.chunk) together with the
progress item length field counting the bytes written into it. -/
structure Chunk where
  id : Nat
  length : Nat
deriving DecidableEq

/-- A DownloadProgressItem as queued: back-reference to the owning Download
(owner id, 0 for the burned NULL reference), the chunk buffer id, the length
field, and the bytesExpected/bytesLoaded snapshot taken at push time. -/
structure Item where
  owner : Nat
  chunkId : Nat
  length : Nat
  bytesExpected : Nat
  bytesLoaded : Nat
deriving DecidableEq

/-- A Download struct: callbacks (modelled by presence), the owned URL copy,
result code and static reason string, byte counters, the chunk currently
being filled, and the outstanding progress-item counter (a C int). -/
structure Handle where
  hasProgressCb : Bool
  hasCompleteCb : Bool
  url : String
  result : Int
  reason : Option String
  bytesExpected : Nat
  bytesLoaded : Nat
  current : Option Chunk
  outstanding : Int
deriving DecidableEq

/-- Worker-side global state: the malloc counter handing out fresh chunk
buffer ids and the progressRecycleQueue contents. -/
structure WEnv where
  nextChunkId : Nat
  recycleQueue : List Item
deriving DecidableEq

/-- Worker-side chunk-level operations, in program order: freeing a recycled
progress item (downloadRecycleProgressItems), allocating a fresh progress
item with a buffer of the given malloc size, a memcpy of len bytes from
offset srcOff of segment number segIdx into offset dstOff of the current
chunk, and pushing a finished item onto the progressQueue. -/
inductive ChunkOp where
  | freeItem (chunkId : Nat)
  | allocItem (chunkId : Nat) (size : Nat)
  | copy (segIdx : Nat) (srcOff : Nat) (dstOff : Nat) (len : Nat)
  | pushChunk (it : Item)
deriving DecidableEq

/-- Worker-side operations at job granularity: the transfer starting
(curl_easy_perform invoked), a chunk-level operation, or pushing the handle
onto the resultsQueue with its result code and reason string. -/
inductive WOp where
  | start (handle : Nat)
  | chunk (op : ChunkOp)
  | pushResult (handle : Nat) (result : Int) (reason : String)
deriving DecidableEq

/-- One step of worker execution: updated globals, updated handle, emitted
chunk operations. -/
structure WStep where
  env : WEnv
  handle : Handle
  ops : List ChunkOp

/-- src/client/main.c lines 312-325: downloadRecycleProgressItems pops every
item from the progressRecycleQueue and frees its chunk buffer and the item
itself; nothing is retained. -/
def downloadRecycleProgressItems : List Item → List ChunkOp
  | [] => []
  | it :: rest => ChunkOp.freeItem it.chunkId :: downloadRecycleProgressItems rest

/-- src/client/main.c lines 384-391: allocate a fresh DownloadProgressItem
and a fresh chunk buffer of kMaxChunksize bytes, length field zero.  The
fresh buffer id is the next malloc id; the recycle queue plays no part. -/
def allocProgressItem (env : WEnv) (h : Handle) : WStep :=
  { env := { env with nextChunkId := env.nextChunkId + 1 },
    handle := { h with current := some { id := env.nextChunkId, length := 0 } },
    ops := [ChunkOp.allocItem env.nextChunkId kMaxChunksize] }

/-- src/client/main.c lines 329-346: downloadPushProgressItem.  If a current
progress item exists: snapshot the byte counters into it, set its context
back-reference, increment the outstanding counter, push it onto the
progressQueue and clear the current-item slot; otherwise do nothing. -/
def downloadPushProgressItem (hid : Nat) (h : Handle) : Handle × List ChunkOp :=
  match h.current with
  | none => (h, [])
  | some c =>
      ({ h with current := none, outstanding := h.outstanding + 1 },
       [ChunkOp.pushChunk
          { owner := hid, chunkId := c.id, length := c.length,
            bytesExpected := h.bytesExpected, bytesLoaded := h.bytesLoaded }])

/-- Result of the segment-slicing loop: updated globals and handle, emitted
operations, and the segmentLength remaining when the fuel ran out (0 whenever
the fuel covers the loop, see segLoop_fuel_sufficient). -/
structure SegResult where
  env : WEnv
  handle : Handle
  ops : List ChunkOp
  leftover : Nat

/-- src/client/main.c lines 359-392: one fill iteration of the segment
loop, entered with a current item present.  chunkSize = MIN(kMaxChunksize -
length, segmentLength) bytes are copied to destination offset length, then
the item length field is increased by segmentLength (the remaining count,
not chunkSize - the slip the spec flags), bytesLoaded by chunkSize,
segmentLength is decreased by chunkSize and the source pointer advanced by
the new remaining count; an item whose length lands exactly on
kMaxChunksize is pushed; if afterwards no current item exists, a fresh one
is allocated.  Returns the step plus the new srcOff and segmentLength. -/
def segFill (hid segIdx : Nat) (env : WEnv) (h : Handle) (c : Chunk)
    (srcOff segLen : Nat) : WStep × Nat × Nat :=
  let chunkSize := min (usub64 kMaxChunksize c.length) segLen
  let newLen := (c.length + segLen) % W64
  let h1 : Handle := { h with current := some { id := c.id, length := newLen },
                              bytesLoaded := (h.bytesLoaded + chunkSize) % W64 }
  let segLen1 := segLen - chunkSize
  let p := if newLen = kMaxChunksize then downloadPushProgressItem hid h1 else (h1, [])
  let a : WStep :=
    match p.1.current with
    | none => allocProgressItem env p.1
    | some _ => { env := env, handle := p.1, ops := [] }
  ({ env := a.env, handle := a.handle,
     ops := ChunkOp.copy segIdx srcOff c.length chunkSize :: (p.2 ++ a.ops) },
   srcOff + segLen1, segLen1)

/-- src/client/main.c lines 356-395: the while (segmentLength > 0) loop of
onCURLDownloadSegment, one fuel unit per iteration.  An iteration entered
with no current item only allocates one (the fill happens on the next
iteration, exactly as the C loop re-tests its guard); an iteration entered
with a current item runs segFill. -/
def segLoop (hid segIdx : Nat) : Nat → WEnv → Handle → Nat → Nat → SegResult
  | 0, env, h, _srcOff, segLen => { env := env, handle := h, ops := [], leftover := segLen }
  | fuel + 1, env, h, srcOff, segLen =>
    if segLen = 0 then { env := env, handle := h, ops := [], leftover := 0 }
    else
      match h.current with
      | none =>
        let a := allocProgressItem env h
        let r := segLoop hid segIdx fuel a.env a.handle srcOff segLen
        { env := r.env, handle := r.handle, ops := a.ops ++ r.ops, leftover := r.leftover }
      | some c =>
        let f := segFill hid segIdx env h c srcOff segLen
        let r := segLoop hid segIdx fuel f.1.env f.1.handle f.2.1 f.2.2
        { env := r.env, handle := r.handle, ops := f.1.ops ++ r.ops, leftover := r.leftover }

/-- src/client/main.c lines 348-399: onCURLDownloadSegment.  Drains the
recycle queue (freeing its items), computes segmentLength = count * elements
in size_t, and runs the slicing loop.  The fuel 2 * segmentLength + 2
strictly exceeds the loop iteration count (segLoop_fuel_sufficient), so the
encoding runs the loop to its exit. -/
def onCURLDownloadSegment (hid segIdx : Nat) (env : WEnv) (h : Handle)
    (count elements : Nat) : WStep :=
  let fops := downloadRecycleProgressItems env.recycleQueue
  let segmentLength := (count * elements) % W64
  let r := segLoop hid segIdx (2 * segmentLength + 2) { env with recycleQueue := [] } h
             0 segmentLength
  { env := r.env, handle := r.handle, ops := fops ++ r.ops }

/-- src/client/main.c lines 401-414: onCURLDownloadProgress overwrites the
byte counters with the totals cURL reports (cast from double to size_t). -/
def onCURLDownloadProgress (h : Handle) (dlTotal dlCurrent : Nat) : Handle :=
  { h with bytesExpected := dlTotal % W64, bytesLoaded := dlCurrent % W64 }

/-- One callback the blocking curl_easy_perform delivers on the worker
thread: a write (segment) callback carrying count and elements, or a
progress-totals callback. -/
inductive XferEv where
  | segment (count elements : Nat)
  | progressTotals (dlTotal dlCurrent : Nat)
deriving DecidableEq

/-- The callback sequence of one curl_easy_perform call: write callbacks go
to onCURLDownloadSegment (numbered for the trace), progress callbacks to
onCURLDownloadProgress. -/
def performLoop (hid : Nat) : List XferEv → Nat → WEnv → Handle → WStep
  | [], _segIdx, env, h => { env := env, handle := h, ops := [] }
  | XferEv.segment c e :: rest, segIdx, env, h =>
      let s1 := onCURLDownloadSegment hid segIdx env h c e
      let s2 := performLoop hid rest (segIdx + 1) s1.env s1.handle
      { env := s2.env, handle := s2.handle, ops := s1.ops ++ s2.ops }
  | XferEv.progressTotals t cur :: rest, segIdx, env, h =>
      performLoop hid rest segIdx env (onCURLDownloadProgress h t cur)

/-- One job as the worker thread sees it: the popped Download (by id),
whether curl_easy_init succeeds, the callbacks the transfer delivers, and
the curl_easy_perform result code. -/
structure Job where
  id : Nat
  initOk : Bool
  events : List XferEv
  curlResult : Int
deriving DecidableEq

/-- One worker step at job granularity. -/
structure JobStep where
  env : WEnv
  handle : Handle
  ops : List WOp

/-- src/client/main.c lines 439-475: the body of the curlThread loop for one
popped job.  If curl_easy_init fails: result := 0, reason :=
"curl-init-error", push the handle onto the resultsQueue, continue.
Otherwise: curl_easy_perform (the transfer callbacks), then flush the
current progress item, set result and reason := "curl-done", push the
handle onto the resultsQueue, then drain the recycle queue. -/
def curlThreadJob (env : WEnv) (h : Handle) (j : Job) : JobStep :=
  if j.initOk then
    let s1 := performLoop j.id j.events 0 env h
    let p := downloadPushProgressItem j.id s1.handle
    let fops := downloadRecycleProgressItems s1.env.recycleQueue
    { env := { s1.env with recycleQueue := [] },
      handle := { p.1 with result := j.curlResult, reason := some "curl-done" },
      ops := WOp.start j.id ::
        (s1.ops.map WOp.chunk ++ p.2.map WOp.chunk ++
         [WOp.pushResult j.id j.curlResult "curl-done"] ++ fops.map WOp.chunk) }
  else
    { env := env,
      handle := { h with result := 0, reason := some "curl-init-error" },
      ops := [WOp.pushResult j.id 0 "curl-init-error"] }

/-- The operations one job emits. -/
def jobOps (env : WEnv) (h : Handle) (j : Job) : List WOp :=
  (curlThreadJob env h j).ops

/-- src/client/main.c lines 424-476: the curlThread while loop processes the
jobQueue strictly sequentially, one popped Download at a time, in pop
order. -/
def curlThreadRun (env : WEnv) : List (Handle × Job) → WEnv × List WOp
  | [] => (env, [])
  | (h, j) :: rest =>
      let s := curlThreadJob env h j
      let r := curlThreadRun s.env rest
      (r.1, s.ops ++ r.2)

/-- A foreground-thread callback invocation the dispatcher performs: a
progress callback (data, length, bytesLoaded, bytesExpected) or a completion
callback (result, reason). -/
inductive DEv where
  | progress (owner : Nat) (length : Nat) (bytesLoaded : Nat) (bytesExpected : Nat)
  | complete (owner : Nat) (result : Int) (reason : Option String)
deriving DecidableEq

/-- The heap of Download structs, addressed by handle id. -/
def updateStore (st : Nat → Handle) (i : Nat) (h : Handle) : Nat → Handle :=
  fun j => if j = i then h else st j

/-- src/client/main.c lines 256-272: the progress-drain while loop of
onDownloadQueuePoll.  Each popped item: invoke the owning handle progress
callback when one is registered, decrement the outstanding counter, burn
the context reference and push the item onto the recycle queue.  Returns
the updated store, the recycle-queue additions in push order, and the
emitted callback events. -/
def drainProgress : List Item → (Nat → Handle) → ((Nat → Handle) × List Item × List DEv)
  | [], st => (st, [], [])
  | it :: rest, st =>
      let h := st it.owner
      let evs := if h.hasProgressCb
        then [DEv.progress it.owner it.length it.bytesLoaded it.bytesExpected] else []
      let st1 := updateStore st it.owner { h with outstanding := h.outstanding - 1 }
      let r := drainProgress rest st1
      (r.1, { it with owner := 0 } :: r.2.1, evs ++ r.2.2)

/-- src/client/main.c lines 275-305: the completion-drain while loop of
onDownloadQueuePoll, one fuel unit per pop.  A popped handle with
outstanding counter 0: completion callback when registered, the handle and
its URL copy are freed, gDownload.count--.  Otherwise the handle is pushed
back onto the front of the resultsQueue (the next pop returns it again) and
the loop continues.  Returns none when the fuel runs out before the pop
returns empty; the store is never modified here.  Result: remaining queue,
updated count, emitted events, freed handle ids. -/
def drainResults (st : Nat → Handle) :
    Nat → List Nat → Nat → Option (List Nat × Nat × List DEv × List Nat)
  | _, [], count => some ([], count, [], [])
  | 0, _ :: _, _ => none
  | fuel + 1, hid :: rest, count =>
      let h := st hid
      if h.outstanding = 0 then
        match drainResults st fuel rest (decr32 count) with
        | none => none
        | some (q, c, evs, fr) =>
            some (q, c,
              (if h.hasCompleteCb then [DEv.complete hid h.result h.reason] else []) ++ evs,
              hid :: fr)
      else
        drainResults st fuel (hid :: rest) count

/-- The gDownload globals plus the heap of live Download structs: the four
queues, the live-handle count (unsigned int) and the malloc counter for
Download structs. -/
structure GState where
  jobQueue : List Nat
  resultsQueue : List Nat
  progressQueue : List Item
  recycleQueue : List Item
  handles : Nat → Handle
  count : Nat
  nextHandleId : Nat

/-- src/client/main.c lines 251-310: one dispatcher tick.  Drain the
progressQueue completely, then drain the resultsQueue (fuel-indexed: the
completion loop re-pops a front-pushed record immediately and need not
terminate), then report whether the periodic timer keeps running:
gDownload.count > 0.  none models a tick that never returns. -/
def onDownloadQueuePoll (fuel : Nat) (s : GState) : Option (GState × Bool × List DEv) :=
  let d := drainProgress s.progressQueue s.handles
  match drainResults d.1 fuel s.resultsQueue s.count with
  | none => none
  | some (q, count1, cevs, _freed) =>
      some ({ s with progressQueue := [],
                     resultsQueue := q,
                     recycleQueue := s.recycleQueue ++ d.2.1,
                     handles := d.1,
                     count := count1 },
            decide (0 < count1), d.2.2 ++ cevs)

/-- The DownloadOptions a caller submits: the URL and the two optional
callbacks (modelled by presence). -/
structure DownloadOptions where
  url : String
  hasProgressCb : Bool
  hasCompleteCb : Bool

/-- src/client/main.c lines 215-249: DownloadNew.  Allocates a fresh
Download, copies the URL, zeroes result, reason, byte counters, the
current-item slot and the outstanding counter, pushes the handle onto the
jobQueue, arms the periodic dispatcher tick exactly when gDownload.count is
zero at that moment, and increments gDownload.count.  Returns the new
state, the handle id, and whether the timer was armed. -/
def DownloadNew (opts : DownloadOptions) (s : GState) : GState × Nat × Bool :=
  let h : Handle :=
    { hasProgressCb := opts.hasProgressCb, hasCompleteCb := opts.hasCompleteCb,
      url := opts.url, result := 0, reason := none,
      bytesExpected := 0, bytesLoaded := 0, current := none, outstanding := 0 }
  ({ s with handles := updateStore s.handles s.nextHandleId h,
            jobQueue := s.jobQueue ++ [s.nextHandleId],
            nextHandleId := s.nextHandleId + 1,
            count := (s.count + 1) % W32 },
   s.nextHandleId, decide (s.count = 0))

/-- Does this worker operation start the transfer of the given handle. -/
def WOp.isStartOf (hid : Nat) : WOp → Bool
  | WOp.start h => h == hid
  | _ => false

/-- Does this worker operation push the given handle onto the resultsQueue. -/
def WOp.isPushResultOf (hid : Nat) : WOp → Bool
  | WOp.pushResult h _ _ => h == hid
  | _ => false

/-- Does this worker operation push a progress item owned by the given handle. -/
def WOp.isPushChunkOf (hid : Nat) : WOp → Bool
  | WOp.chunk (ChunkOp.pushChunk it) => it.owner == hid
  | _ => false

/-- Does this worker operation push a progress item (any owner). -/
def WOp.isPushChunk : WOp → Bool
  | WOp.chunk (ChunkOp.pushChunk _) => true
  | _ => false

/-- Is this dispatcher event a progress-callback invocation. -/
def DEv.isProgressEv : DEv → Bool
  | DEv.progress _ _ _ _ => true
  | _ => false

/-- Is this dispatcher event a completion-callback invocation. -/
def DEv.isCompleteEv : DEv → Bool
  | DEv.complete _ _ _ => true
  | _ => false

/-- The length fields of the progress items a worker trace pushes onto the
progressQueue, in push order. -/
def pushedChunkLengths (l : List WOp) : List Nat :=
  l.filterMap fun op =>
    match op with
    | WOp.chunk (ChunkOp.pushChunk it) => some it.length
    | _ => none

/-- Was byte `off` of segment number `segIdx` ever copied into a chunk by
some memcpy of the trace. -/
def srcByteCopied (segIdx off : Nat) (l : List WOp) : Bool :=
  l.any fun op =>
    match op with
    | WOp.chunk (ChunkOp.copy si so _ len) => decide (si = segIdx ∧ so ≤ off ∧ off < so + len)
    | _ => false

/-- A freshly submitted handle, exactly as DownloadNew initialises one, with
both callbacks registered. -/
def hNew : Handle :=
  { hasProgressCb := true, hasCompleteCb := true, url := "http://test/ok",
    result := 0, reason := none, bytesExpected := 0, bytesLoaded := 0,
    current := none, outstanding := 0 }

/-- Worker globals at thread start: no chunk allocated yet, empty recycle
queue. -/
def wenv0 : WEnv := { nextChunkId := 0, recycleQueue := [] }

/-- A job whose transfer delivers 204800 bytes (N = 200 KiB) as two write
callbacks of 102400 bytes (100 KiB) each, then succeeds. -/
def jobTwoSeg : Job :=
  { id := 1, initOk := true,
    events := [XferEv.segment 102400 1, XferEv.segment 102400 1], curlResult := 0 }

/-- A job whose transfer delivers exactly kMaxChunksize bytes in one write
callback, then succeeds. -/
def jobAligned : Job :=
  { id := 1, initOk := true, events := [XferEv.segment 131072 1], curlResult := 0 }

/-- The worker trace of the two-segment job. -/
def traceTwoSeg : List WOp := jobOps wenv0 hNew jobTwoSeg

/-- The worker trace of the capacity-aligned job. -/
def traceAligned : List WOp := jobOps wenv0 hNew jobAligned

/-- A job whose curl_easy_init fails before any bytes are transferred. -/
def jobInitFail : Job := { id := 1, initOk := false, events := [], curlResult := 0 }

/-- The handle state after the worker handles the failed-init job. -/
def hInitFailed : Handle := (curlThreadJob wenv0 hNew jobInitFail).handle

/-- Foreground state once the failed-init completion record is queued. -/
def sInitFail : GState :=
  { jobQueue := [], resultsQueue := [1], progressQueue := [], recycleQueue := [],
    handles := fun _ => hInitFailed, count := 1, nextHandleId := 2 }

/-- A handle with one chunk pushed but not yet drained. -/
def hMidTransfer : Handle := { hNew with outstanding := 1 }

/-- Foreground state in which the tick pops a completion record whose handle
still has a nonzero outstanding counter: the progressQueue is already empty
(the chunk and the completion record arrived after this tick drained
progress items), and handle 1 sits in the resultsQueue with outstanding
counter 1. -/
def sDeferred : GState :=
  { jobQueue := [], resultsQueue := [1], progressQueue := [], recycleQueue := [],
    handles := fun _ => hMidTransfer, count := 1, nextHandleId := 2 }

/-- A progress item previously released to the recycle queue: buffer id 7,
a full chunk already delivered, context burned. -/
def bItem : Item :=
  { owner := 0, chunkId := 7, length := kMaxChunksize, bytesExpected := 0, bytesLoaded := 0 }

/-- Worker globals with one released buffer waiting in the recycle queue and
malloc about to hand out buffer id 42. -/
def env6 : WEnv := { nextChunkId := 42, recycleQueue := [bItem] }

/-- Claim C2: the claim says a deferred completion record (popped while its
handle has a nonzero outstanding counter) is pushed back onto the front of
the resultsQueue, skipped, and retried only on the next tick; the tick
itself is said to terminate.  In the code the completion-drain while loop
immediately re-pops the front-pushed record (GAsyncQueue pops the end
push_front writes to), the outstanding counter cannot change inside the
loop (only this loop body decrements it and only in the already-finished
progress phase), so the loop re-pops the same record forever: for every
fuel bound the tick fails to return.  This theorem evaluates the code at
the failing input. -/
theorem onDownloadQueuePoll_deferred_never_returns :
    ∀ fuel, onDownloadQueuePoll fuel sDeferred = none := by
  have key : ∀ fuel, drainResults sDeferred.handles fuel [1] 1 = none := by
    intro fuel
    induction fuel with
    | zero => rfl
    | succ n ih =>
        simp only [drainResults]
        rw [if_neg]
        · exact ih
        · intro hcon
          simp [sDeferred, hMidTransfer, hNew] at hcon
  intro fuel
  simp only [onDownloadQueuePoll, drainProgress]
  have hq : sDeferred.resultsQueue = [1] := rfl
  have hc : sDeferred.count = 1 := rfl
  rw [hq, hc, key fuel]

/-- Claim C3: the claim says a transfer of N bytes, split arbitrarily into
segment callbacks, emits exactly N / C full chunks plus at most one trailing
chunk of N mod C, summing to N.  The code diverges at a transfer of
N = 204800 bytes delivered as two 102400-byte segments (C = 131072): the
second fill adds the whole remaining segment length to the item length
field and advances the source pointer by the remaining count, so the single
emitted chunk records length 278528 - zero full-capacity chunks instead of
one, sum 278528 instead of 204800.  A capacity-aligned transfer of exactly
C bytes additionally emits a trailing zero-length chunk (the loop allocates
a fresh item after the full push and finalization flushes it), where the
claim demands no trailing chunk. -/
theorem segment_slicing_diverges :
    pushedChunkLengths traceTwoSeg = [278528]
  ∧ 204800 / kMaxChunksize = 1 ∧ 204800 % kMaxChunksize = 73728
  ∧ (pushedChunkLengths traceTwoSeg).count kMaxChunksize = 0
  ∧ (pushedChunkLengths traceTwoSeg).sum = 278528
  ∧ pushedChunkLengths traceAligned = [kMaxChunksize, 0] := by decide

/-- Claim C4: the claim says every copy into the current chunk stays within
kMaxChunksize and the recorded length field never exceeds kMaxChunksize.
On the two-segment trace the code performs a memcpy at destination offset
204800 of length 73728 (ending 147456 bytes past the 131072-byte buffer)
and pushes an item whose length field records 278528. -/
theorem chunk_write_exceeds_capacity :
    WOp.chunk (ChunkOp.copy 1 73728 204800 73728) ∈ traceTwoSeg
  ∧ kMaxChunksize < 204800 + 73728
  ∧ WOp.chunk (ChunkOp.pushChunk
      { owner := 1, chunkId := 0, length := 278528, bytesExpected := 0, bytesLoaded := 204800 })
      ∈ traceTwoSeg
  ∧ kMaxChunksize < 278528 := by decide

/-- Claim C5: the claim says a failed transfer-engine initialisation yields
zero progress callbacks and one completion carrying an InitError result
code distinct from Ok.  The code pushes exactly one completion record with
no progress items, but sets result to 0, which is CURLE_OK: the completion
carries the success code, distinguished only by the static reason string
"curl-init-error".  The last conjunct runs the dispatcher on the queued
record: exactly one completion callback fires, with result code 0. -/
theorem init_error_result_is_ok_code :
    jobOps wenv0 hNew jobInitFail = [WOp.pushResult 1 0 "curl-init-error"]
  ∧ pushedChunkLengths (jobOps wenv0 hNew jobInitFail) = []
  ∧ hInitFailed.result = CURLE_OK
  ∧ (onDownloadQueuePoll 1 sInitFail).map (fun r => r.2) =
      some (false, [DEv.complete 1 0 (some "curl-init-error")]) := by decide

/-- Claim C7: the claim says the worker flushes any partially filled chunk
to the queue before pushing the completion record, so every transferred
byte is in the queue before completion is observable.  The flush-then-push
ordering holds on the two-segment trace (the pushChunk at index 5 precedes
the pushResult at index 6, the trace below is complete), but the
segment-copy slip loses transferred bytes: byte 30000 of the second
102400-byte segment (indeed all of bytes 28672..73727) is never the source
of any memcpy, so it is not in any queued chunk when the completion record
is pushed. -/
theorem flush_ordering_holds_but_bytes_lost :
    traceTwoSeg =
      [WOp.start 1,
       WOp.chunk (ChunkOp.allocItem 0 kMaxChunksize),
       WOp.chunk (ChunkOp.copy 0 0 0 102400),
       WOp.chunk (ChunkOp.copy 1 0 102400 28672),
       WOp.chunk (ChunkOp.copy 1 73728 204800 73728),
       WOp.chunk (ChunkOp.pushChunk
         { owner := 1, chunkId := 0, length := 278528, bytesExpected := 0, bytesLoaded := 204800 }),
       WOp.pushResult 1 0 "curl-done"]
  ∧ srcByteCopied 1 30000 traceTwoSeg = false
  ∧ 30000 < 102400 := by decide

/-- Claim C6 counterexample: the claim says acquire allocates freshly only
when the recycle set is empty, otherwise reuses a released buffer, i.e.
released buffers are retained.  With buffer 7 waiting in the recycle queue,
the segment handler frees it (downloadRecycleProgressItems deallocates,
retaining nothing) and fills a freshly malloc-ed buffer with the new id 42:
the released buffer is deallocated, not reused. -/
theorem released_buffer_freed_not_reused :
    ChunkOp.freeItem 7 ∈ (onCURLDownloadSegment 1 0 env6 hNew 8 1).ops
  ∧ (onCURLDownloadSegment 1 0 env6 hNew 8 1).env.recycleQueue = []
  ∧ (onCURLDownloadSegment 1 0 env6 hNew 8 1).handle.current = some { id := 42, length := 8 }
  ∧ ((onCURLDownloadSegment 1 0 env6 hNew 8 1).handle.current.map Chunk.id ≠ some bItem.chunkId)
  := by decide

/-- Loop measure for the segment-slicing while loop: an iteration that does
not shrink segmentLength either allocates a missing current item or widens
an item sitting exactly at kMaxChunksize, so each iteration shrinks this. -/
def chunkMeasure (cur : Option Chunk) (segLen : Nat) : Nat :=
  2 * segLen +
    match cur with
    | none => 1
    | some c => if usub64 kMaxChunksize c.length = 0 then 1 else 0

theorem chunkMeasure_none (segLen : Nat) : chunkMeasure none segLen = 2 * segLen + 1 := rfl

theorem chunkMeasure_some_pos (c : Chunk) (segLen : Nat)
    (hc : usub64 kMaxChunksize c.length ≠ 0) :
    chunkMeasure (some c) segLen = 2 * segLen := by
  simp [chunkMeasure, hc]

theorem chunkMeasure_some_zero (c : Chunk) (segLen : Nat)
    (hc : usub64 kMaxChunksize c.length = 0) :
    chunkMeasure (some c) segLen = 2 * segLen + 1 := by
  simp [chunkMeasure, hc]

theorem usub64_cap_eq_zero_iff (n : Nat) (hn : n < W64) :
    usub64 kMaxChunksize n = 0 ↔ n = kMaxChunksize := by
  unfold usub64 W64 kMaxChunksize at *
  norm_num at hn ⊢
  omega

theorem segFill_segLen (hid segIdx : Nat) (env : WEnv) (h : Handle) (c : Chunk)
    (srcOff segLen : Nat) :
    (segFill hid segIdx env h c srcOff segLen).2.2
      = segLen - min (usub64 kMaxChunksize c.length) segLen := rfl

/-- After a fill iteration a current item is always present and never sits
at exactly kMaxChunksize remaining-capacity zero: a full item was pushed
and replaced by a fresh empty one, a non-full one has length below W64 and
different from kMaxChunksize. -/
theorem segFill_current (hid segIdx : Nat) (env : WEnv) (h : Handle) (c : Chunk)
    (srcOff segLen : Nat) :
    ∃ c', (segFill hid segIdx env h c srcOff segLen).1.handle.current = some c'
      ∧ usub64 kMaxChunksize c'.length ≠ 0 := by
  by_cases hp : (c.length + segLen) % W64 = kMaxChunksize
  · refine ⟨{ id := env.nextChunkId, length := 0 }, ?_, by show usub64 kMaxChunksize 0 ≠ 0; decide⟩
    simp [segFill, downloadPushProgressItem, allocProgressItem, hp]
  · refine ⟨{ id := c.id, length := (c.length + segLen) % W64 }, ?_, ?_⟩
    · simp [segFill, downloadPushProgressItem, allocProgressItem, hp]
    · intro h0
      have hlt : (c.length + segLen) % W64 < W64 := Nat.mod_lt _ (by norm_num [W64])
      exact hp ((usub64_cap_eq_zero_iff _ hlt).1 h0)

/-- With the fuel strictly above the loop measure, the fuel-indexed segment
loop runs to the loop exit: no segment bytes remain unprocessed.  The call
site uses fuel 2 * segmentLength + 2, which always satisfies this. -/
theorem segLoop_fuel_sufficient (hid segIdx : Nat) :
    ∀ fuel env h srcOff segLen, chunkMeasure h.current segLen < fuel →
      (segLoop hid segIdx fuel env h srcOff segLen).leftover = 0 := by
  intro fuel
  induction fuel with
  | zero => intro env h srcOff segLen hm; omega
  | succ n ih =>
      intro env h srcOff segLen hm
      by_cases hz : segLen = 0
      · simp [segLoop, hz]
      · cases hcur : h.current with
        | none =>
            simp only [segLoop, if_neg hz, hcur]
            apply ih
            have h1 : (allocProgressItem env h).handle.current
                = some { id := env.nextChunkId, length := 0 } := rfl
            rw [h1, chunkMeasure_some_pos _ _ (by show usub64 kMaxChunksize 0 ≠ 0; decide)]
            rw [hcur, chunkMeasure_none] at hm
            omega
        | some c =>
            simp only [segLoop, if_neg hz, hcur]
            apply ih
            obtain ⟨c', hc', hne⟩ := segFill_current hid segIdx env h c srcOff segLen
            rw [hc', chunkMeasure_some_pos _ _ hne, segFill_segLen]
            by_cases h0 : usub64 kMaxChunksize c.length = 0
            · rw [hcur, chunkMeasure_some_zero _ _ h0] at hm
              simp [h0]
              omega
            · rw [hcur, chunkMeasure_some_pos _ _ h0] at hm
              have hcs : 1 ≤ min (usub64 kMaxChunksize c.length) segLen := by
                have := Nat.one_le_iff_ne_zero.2 h0
                have := Nat.one_le_iff_ne_zero.2 hz
                omega
              omega

/-- Does this chunk operation push a progress item. -/
def isPushChunkC : ChunkOp → Bool
  | ChunkOp.pushChunk _ => true
  | _ => false

theorem downloadPushProgressItem_outstanding (hid : Nat) (h : Handle) :
    (downloadPushProgressItem hid h).1.outstanding
      = h.outstanding + ((downloadPushProgressItem hid h).2.countP isPushChunkC) := by
  cases hc : h.current <;> simp [downloadPushProgressItem, hc, isPushChunkC]

theorem segFill_outstanding (hid segIdx : Nat) (env : WEnv) (h : Handle) (c : Chunk)
    (srcOff segLen : Nat) :
    (segFill hid segIdx env h c srcOff segLen).1.handle.outstanding
      = h.outstanding + ((segFill hid segIdx env h c srcOff segLen).1.ops.countP isPushChunkC) := by
  by_cases hp : (c.length + segLen) % W64 = kMaxChunksize <;>
    simp [segFill, downloadPushProgressItem, allocProgressItem, hp, isPushChunkC]

theorem segFill_alloc (hid segIdx : Nat) (env : WEnv) (h : Handle) (c : Chunk)
    (srcOff segLen : Nat) (cid sz : Nat)
    (hmem : ChunkOp.allocItem cid sz ∈ (segFill hid segIdx env h c srcOff segLen).1.ops) :
    cid = env.nextChunkId ∧ sz = kMaxChunksize := by
  by_cases hp : (c.length + segLen) % W64 = kMaxChunksize <;>
    simp [segFill, downloadPushProgressItem, allocProgressItem, hp] at hmem
  · exact ⟨hmem.1, hmem.2⟩

theorem segFill_nextChunkId (hid segIdx : Nat) (env : WEnv) (h : Handle) (c : Chunk)
    (srcOff segLen : Nat) :
    env.nextChunkId ≤ (segFill hid segIdx env h c srcOff segLen).1.env.nextChunkId := by
  by_cases hp : (c.length + segLen) % W64 = kMaxChunksize <;>
    simp [segFill, downloadPushProgressItem, allocProgressItem, hp]

theorem segFill_recycleQueue (hid segIdx : Nat) (env : WEnv) (h : Handle) (c : Chunk)
    (srcOff segLen : Nat) :
    (segFill hid segIdx env h c srcOff segLen).1.env.recycleQueue = env.recycleQueue := by
  by_cases hp : (c.length + segLen) % W64 = kMaxChunksize <;>
    simp [segFill, downloadPushProgressItem, allocProgressItem, hp]

theorem segLoop_outstanding (hid segIdx : Nat) :
    ∀ fuel env h srcOff segLen,
      (segLoop hid segIdx fuel env h srcOff segLen).handle.outstanding
        = h.outstanding
          + ((segLoop hid segIdx fuel env h srcOff segLen).ops.countP isPushChunkC) := by
  intro fuel
  induction fuel with
  | zero => intro env h srcOff segLen; simp [segLoop]
  | succ n ih =>
      intro env h srcOff segLen
      by_cases hz : segLen = 0
      · simp [segLoop, hz]
      · cases hcur : h.current with
        | none =>
            simp only [segLoop, if_neg hz, hcur]
            rw [ih, List.countP_append]
            have ho : (allocProgressItem env h).handle.outstanding = h.outstanding := rfl
            have hops : (allocProgressItem env h).ops.countP isPushChunkC = 0 := by
              simp [allocProgressItem, isPushChunkC]
            rw [ho, hops]
            omega
        | some c =>
            simp only [segLoop, if_neg hz, hcur]
            rw [ih, List.countP_append, segFill_outstanding]
            omega

theorem segLoop_alloc (hid segIdx : Nat) :
    ∀ fuel env h srcOff segLen cid sz,
      ChunkOp.allocItem cid sz ∈ (segLoop hid segIdx fuel env h srcOff segLen).ops →
      sz = kMaxChunksize ∧ env.nextChunkId ≤ cid := by
  intro fuel
  induction fuel with
  | zero => intro env h srcOff segLen cid sz hmem; simp [segLoop] at hmem
  | succ n ih =>
      intro env h srcOff segLen cid sz hmem
      by_cases hz : segLen = 0
      · simp [segLoop, hz] at hmem
      · cases hcur : h.current with
        | none =>
            simp only [segLoop, if_neg hz, hcur] at hmem
            rcases List.mem_append.1 hmem with h1 | h2
            · have : ChunkOp.allocItem cid sz
                  ∈ [ChunkOp.allocItem env.nextChunkId kMaxChunksize] := h1
              simp at this
              exact ⟨this.2, Nat.le_of_eq this.1.symm⟩
            · obtain ⟨hsz, hle⟩ := ih _ _ _ _ _ _ h2
              have : (allocProgressItem env h).env.nextChunkId = env.nextChunkId + 1 := rfl
              rw [this] at hle
              exact ⟨hsz, by omega⟩
        | some c =>
            simp only [segLoop, if_neg hz, hcur] at hmem
            rcases List.mem_append.1 hmem with h1 | h2
            · obtain ⟨hc, hsz⟩ := segFill_alloc hid segIdx env h c srcOff segLen cid sz h1
              exact ⟨hsz, Nat.le_of_eq hc.symm⟩
            · obtain ⟨hsz, hle⟩ := ih _ _ _ _ _ _ h2
              exact ⟨hsz, le_trans (segFill_nextChunkId hid segIdx env h c srcOff segLen) hle⟩

theorem segLoop_recycleQueue (hid segIdx : Nat) :
    ∀ fuel env h srcOff segLen,
      (segLoop hid segIdx fuel env h srcOff segLen).env.recycleQueue = env.recycleQueue := by
  intro fuel
  induction fuel with
  | zero => intro env h srcOff segLen; simp [segLoop]
  | succ n ih =>
      intro env h srcOff segLen
      by_cases hz : segLen = 0
      · simp [segLoop, hz]
      · cases hcur : h.current with
        | none =>
            simp only [segLoop, if_neg hz, hcur]
            rw [ih]
            rfl
        | some c =>
            simp only [segLoop, if_neg hz, hcur]
            rw [ih, segFill_recycleQueue]

theorem downloadRecycleProgressItems_eq_map (q : List Item) :
    downloadRecycleProgressItems q = q.map fun it => ChunkOp.freeItem it.chunkId := by
  induction q with
  | nil => rfl
  | cons it rest ih => simp [downloadRecycleProgressItems, ih]

theorem downloadRecycleProgressItems_countP (q : List Item) :
    (downloadRecycleProgressItems q).countP isPushChunkC = 0 := by
  rw [downloadRecycleProgressItems_eq_map, List.countP_map]
  simp [Function.comp, isPushChunkC]

theorem onCURLDownloadSegment_outstanding (hid segIdx : Nat) (env : WEnv) (h : Handle)
    (count elements : Nat) :
    (onCURLDownloadSegment hid segIdx env h count elements).handle.outstanding
      = h.outstanding
        + ((onCURLDownloadSegment hid segIdx env h count elements).ops.countP isPushChunkC) := by
  simp only [onCURLDownloadSegment, List.countP_append]
  rw [segLoop_outstanding, downloadRecycleProgressItems_countP]
  omega

theorem onCURLDownloadSegment_alloc (hid segIdx : Nat) (env : WEnv) (h : Handle)
    (count elements : Nat) (cid sz : Nat)
    (hmem : ChunkOp.allocItem cid sz
      ∈ (onCURLDownloadSegment hid segIdx env h count elements).ops) :
    sz = kMaxChunksize ∧ env.nextChunkId ≤ cid := by
  simp only [onCURLDownloadSegment] at hmem
  rcases List.mem_append.1 hmem with h1 | h2
  · rw [downloadRecycleProgressItems_eq_map] at h1
    simp [List.mem_map] at h1
  · have h3 := segLoop_alloc hid segIdx _ _ _ _ _ _ _ h2
    exact h3

theorem onCURLDownloadSegment_recycleQueue (hid segIdx : Nat) (env : WEnv) (h : Handle)
    (count elements : Nat) :
    (onCURLDownloadSegment hid segIdx env h count elements).env.recycleQueue = [] := by
  simp only [onCURLDownloadSegment]
  rw [segLoop_recycleQueue]

theorem segLoop_nextChunkId (hid segIdx : Nat) :
    ∀ fuel env h srcOff segLen,
      env.nextChunkId ≤ (segLoop hid segIdx fuel env h srcOff segLen).env.nextChunkId := by
  intro fuel
  induction fuel with
  | zero => intro env h srcOff segLen; simp [segLoop]
  | succ m ih =>
      intro env h srcOff segLen
      by_cases hz : segLen = 0
      · simp [segLoop, hz]
      · cases hcur : h.current with
        | none =>
            simp only [segLoop, if_neg hz, hcur]
            have halloc : (allocProgressItem env h).env.nextChunkId = env.nextChunkId + 1 := rfl
            have := ih (allocProgressItem env h).env (allocProgressItem env h).handle srcOff segLen
            omega
        | some c =>
            simp only [segLoop, if_neg hz, hcur]
            exact le_trans (segFill_nextChunkId hid segIdx env h c srcOff segLen) (ih _ _ _ _)

theorem onCURLDownloadSegment_nextChunkId (hid segIdx : Nat) (env : WEnv) (h : Handle)
    (count elements : Nat) :
    env.nextChunkId ≤ (onCURLDownloadSegment hid segIdx env h count elements).env.nextChunkId := by
  simp only [onCURLDownloadSegment]
  exact segLoop_nextChunkId hid segIdx (2 * (count * elements % W64) + 2)
    { env with recycleQueue := [] } h 0 (count * elements % W64)

theorem performLoop_outstanding (hid : Nat) :
    ∀ evs segIdx env h,
      (performLoop hid evs segIdx env h).handle.outstanding
        = h.outstanding + ((performLoop hid evs segIdx env h).ops.countP isPushChunkC) := by
  intro evs
  induction evs with
  | nil => intro segIdx env h; simp [performLoop]
  | cons ev rest ih =>
      intro segIdx env h
      cases ev with
      | segment c e =>
          simp only [performLoop, List.countP_append]
          rw [ih, onCURLDownloadSegment_outstanding]
          omega
      | progressTotals t cur =>
          simp only [performLoop]
          rw [ih]
          rfl

theorem curlThreadJob_outstanding (env : WEnv) (h : Handle) (j : Job) :
    (curlThreadJob env h j).handle.outstanding
      = h.outstanding + ((jobOps env h j).countP WOp.isPushChunk) := by
  by_cases hi : j.initOk
  · simp only [jobOps, curlThreadJob, if_pos hi, List.countP_cons, List.countP_append,
      List.countP_map]
    have e1 : ∀ l : List ChunkOp,
        l.countP (WOp.isPushChunk ∘ WOp.chunk) = l.countP isPushChunkC := by
      intro l
      apply List.countP_congr
      intro op _
      cases op <;> simp [WOp.isPushChunk, isPushChunkC, Function.comp]
    rw [e1, e1, e1]
    have hflush := downloadPushProgressItem_outstanding j.id (performLoop j.id j.events 0 env h).handle
    have hperf := performLoop_outstanding j.id j.events 0 env h
    have hfree := downloadRecycleProgressItems_countP
      (performLoop j.id j.events 0 env h).env.recycleQueue
    simp only [WOp.isPushChunk, WOp.isPushResultOf]
    rw [hfree]
    simp only [hflush, hperf, List.countP_nil]
    simp
    omega
  · simp only [jobOps, curlThreadJob, if_neg hi, List.countP_cons]
    simp [WOp.isPushChunk]

/-- The shape of one job's operation list: the failed-init job pushes only
its completion record; a performed job emits its start marker, the transfer
chunk operations, the flush, its one completion record, then recycle
frees. -/
theorem jobOps_shape (env : WEnv) (h : Handle) (j : Job) :
    (j.initOk = false ∧ jobOps env h j = [WOp.pushResult j.id 0 "curl-init-error"]) ∨
    (j.initOk = true ∧ ∃ A B F : List ChunkOp,
      (∀ op ∈ F, ∃ cid, op = ChunkOp.freeItem cid) ∧
      jobOps env h j = WOp.start j.id ::
        (A.map WOp.chunk ++ B.map WOp.chunk ++
         ([WOp.pushResult j.id j.curlResult "curl-done"] ++ F.map WOp.chunk))) := by
  by_cases hi : j.initOk
  · right
    refine ⟨hi, (performLoop j.id j.events 0 env h).ops,
      (downloadPushProgressItem j.id (performLoop j.id j.events 0 env h).handle).2,
      downloadRecycleProgressItems (performLoop j.id j.events 0 env h).env.recycleQueue,
      ?_, ?_⟩
    · intro op hop
      rw [downloadRecycleProgressItems_eq_map] at hop
      obtain ⟨it, _, rfl⟩ := List.mem_map.1 hop
      exact ⟨it.chunkId, rfl⟩
    · simp [jobOps, curlThreadJob, hi]
  · left
    refine ⟨by simpa using hi, ?_⟩
    simp [jobOps, curlThreadJob, hi]

theorem get?_prefix_bound {α : Type} (P : α → Bool) (l1 l2 : List α) (i : Nat) (a : α)
    (hall : ∀ x ∈ l1, P x = false)
    (hget : (l1 ++ l2).get? i = some a) (ha : P a = true) : l1.length ≤ i := by
  by_contra hlt
  push_neg at hlt
  rw [List.get?_append hlt] at hget
  have := hall a (List.get?_mem hget)
  rw [this] at ha
  exact Bool.false_ne_true ha

theorem get?_suffix_bound {α : Type} (P : α → Bool) (l1 l2 : List α) (j : Nat) (b : α)
    (hall : ∀ x ∈ l2, P x = false)
    (hget : (l1 ++ l2).get? j = some b) (hb : P b = true) : j < l1.length := by
  by_contra hge
  push_neg at hge
  rw [List.get?_append_right hge] at hget
  have := hall b (List.get?_mem hget)
  rw [this] at hb
  exact Bool.false_ne_true hb

theorem get?_mem_left {α : Type} (l1 l2 : List α) (b : α) (hb : b ∈ l1) :
    ∃ k, k < l1.length ∧ (l1 ++ l2).get? k = some b := by
  obtain ⟨k, hk⟩ := List.mem_iff_get?.1 hb
  have hklt : k < l1.length := by
    rcases List.get?_eq_some.1 hk with ⟨hlt, _⟩
    exact hlt
  exact ⟨k, hklt, by rw [List.get?_append hklt]; exact hk⟩

theorem jobOps_isStartOf (env : WEnv) (h : Handle) (j : Job) (x : Nat) (op : WOp)
    (hop : op ∈ jobOps env h j) (hx : op.isStartOf x = true) : x = j.id := by
  rcases jobOps_shape env h j with ⟨_, heq⟩ | ⟨_, A, B, F, _, heq⟩
  · rw [heq] at hop
    simp at hop
    subst hop
    simp [WOp.isStartOf] at hx
  · rw [heq] at hop
    rcases List.mem_cons.1 hop with rfl | hop2
    · simp only [WOp.isStartOf, beq_iff_eq] at hx
      exact hx.symm
    · exfalso
      rcases List.mem_append.1 hop2 with hm | hm
      · rcases List.mem_append.1 hm with hm2 | hm2 <;>
        · obtain ⟨_, _, rfl⟩ := List.mem_map.1 hm2
          simp [WOp.isStartOf] at hx
      · rcases List.mem_append.1 hm with hm2 | hm2
        · simp at hm2
          subst hm2
          simp [WOp.isStartOf] at hx
        · obtain ⟨_, _, rfl⟩ := List.mem_map.1 hm2
          simp [WOp.isStartOf] at hx

theorem jobOps_pushResult_mem (env : WEnv) (h : Handle) (j : Job) :
    ∃ op ∈ jobOps env h j, op.isPushResultOf j.id = true := by
  rcases jobOps_shape env h j with ⟨_, heq⟩ | ⟨_, A, B, F, _, heq⟩
  · exact ⟨WOp.pushResult j.id 0 "curl-init-error", by rw [heq]; simp,
      by simp [WOp.isPushResultOf]⟩
  · refine ⟨WOp.pushResult j.id j.curlResult "curl-done", by rw [heq]; simp,
      by simp [WOp.isPushResultOf]⟩

theorem jobOps_no_pushResult_chunk (env : WEnv) (h : Handle) (j : Job) (x : Nat) (op : WOp)
    (hop : op ∈ jobOps env h j) (hx : op.isPushChunkOf x = true) :
    op.isPushResultOf x = false ∧ op.isStartOf x = false := by
  cases op <;> simp [WOp.isPushChunkOf, WOp.isPushResultOf, WOp.isStartOf] at hx ⊢

/-- Claim C10 (confirmed): the worker processes back-to-back jobs strictly
in submission order: wherever the second job's transfer-start appears in
the worker trace, the first job's completion-record push appears strictly
earlier. -/
theorem second_transfer_starts_after_first_result
    (env : WEnv) (h1 h2 : Handle) (j1 j2 : Job) (hne : j1.id ≠ j2.id)
    (i : Nat) (op : WOp)
    (hi : (curlThreadRun env [(h1, j1), (h2, j2)]).2.get? i = some op)
    (hstart : op.isStartOf j2.id = true) :
    ∃ k op2, k < i ∧ (curlThreadRun env [(h1, j1), (h2, j2)]).2.get? k = some op2
      ∧ op2.isPushResultOf j1.id = true := by
  have hrun : (curlThreadRun env [(h1, j1), (h2, j2)]).2
      = jobOps env h1 j1 ++ (jobOps (curlThreadJob env h1 j1).env h2 j2 ++ []) := rfl
  rw [hrun] at hi
  have hbound : (jobOps env h1 j1).length ≤ i := by
    refine get?_prefix_bound (WOp.isStartOf j2.id) _ _ i op ?_ hi hstart
    intro x hx
    by_contra hxs
    have : x.isStartOf j2.id = true := by
      cases hxx : x.isStartOf j2.id
      · exact absurd hxx hxs
      · rfl
    exact hne (jobOps_isStartOf env h1 j1 j2.id x hx this).symm
  obtain ⟨op2, hmem, hpr⟩ := jobOps_pushResult_mem env h1 j1
  obtain ⟨k, hk, hget⟩ := get?_mem_left (jobOps env h1 j1)
    (jobOps (curlThreadJob env h1 j1).env h2 j2 ++ []) op2 hmem
  refine ⟨k, op2, by omega, ?_, hpr⟩
  rw [hrun]
  exact hget

theorem drainResults_nil (st : Nat → Handle) (fuel count : Nat) :
    drainResults st fuel [] count = some ([], count, [], []) := by
  cases fuel <;> rfl

theorem drainProgress_events (q : List Item) :
    ∀ st, ∀ e ∈ (drainProgress q st).2.2, e.isProgressEv = true := by
  induction q with
  | nil => intro st e he; simp [drainProgress] at he
  | cons it rest ih =>
      intro st e he
      simp only [drainProgress] at he
      rcases List.mem_append.1 he with h1 | h2
      · rcases Bool.eq_false_or_eq_true (st it.owner).hasProgressCb with hb | hb <;>
          simp [hb] at h1
        subst h1
        rfl
      · exact ih _ e h2

theorem drainResults_facts (st : Nat → Handle) :
    ∀ fuel q count out, drainResults st fuel q count = some out →
      (∀ e ∈ out.2.2.1, e.isCompleteEv = true)
      ∧ (∀ hid r rs, DEv.complete hid r rs ∈ out.2.2.1 → (st hid).outstanding = 0) := by
  intro fuel
  induction fuel with
  | zero =>
      intro q count out hout
      cases q with
      | nil =>
          rw [drainResults_nil] at hout
          cases hout
          exact ⟨by intro e he; simp at he, by intro hid r rs he; simp at he⟩
      | cons hd tl => simp [drainResults] at hout
  | succ n ih =>
      intro q count out hout
      cases q with
      | nil =>
          rw [drainResults_nil] at hout
          cases hout
          exact ⟨by intro e he; simp at he, by intro hid r rs he; simp at he⟩
      | cons hd tl =>
          simp only [drainResults] at hout
          by_cases hz : (st hd).outstanding = 0
          · rw [if_pos hz] at hout
            cases hrec : drainResults st n tl (decr32 count) with
            | none => rw [hrec] at hout; cases hout
            | some out2 =>
                rw [hrec] at hout
                cases hout
                obtain ⟨ih1, ih2⟩ := ih tl (decr32 count) out2 hrec
                constructor
                · intro e he
                  rcases List.mem_append.1 he with h1 | h2
                  · rcases Bool.eq_false_or_eq_true (st hd).hasCompleteCb with hb | hb <;>
                      simp [hb] at h1
                    subst h1
                    rfl
                  · exact ih1 e h2
                · intro hid r rs he
                  rcases List.mem_append.1 he with h1 | h2
                  · rcases Bool.eq_false_or_eq_true (st hd).hasCompleteCb with hb | hb <;>
                      simp [hb] at h1
                    rw [h1.1]
                    exact hz
                  · exact ih2 hid r rs h2
          · rw [if_neg hz] at hout
            exact ih _ _ _ hout

theorem progress_before_complete (pevs cevs : List DEv)
    (hp : ∀ e ∈ pevs, e.isProgressEv = true) (hc : ∀ e ∈ cevs, e.isCompleteEv = true)
    (i j : Nat) (a b : DEv)
    (ha : (pevs ++ cevs).get? i = some a) (hb : (pevs ++ cevs).get? j = some b)
    (hca : a.isCompleteEv = true) (hpb : b.isProgressEv = true) : j < i := by
  have hi : pevs.length ≤ i := by
    refine get?_prefix_bound DEv.isCompleteEv pevs cevs i a ?_ ha hca
    intro x hx
    have := hp x hx
    cases x <;> simp [DEv.isProgressEv, DEv.isCompleteEv] at this ⊢
  have hj : j < pevs.length := by
    refine get?_suffix_bound DEv.isProgressEv pevs cevs j b ?_ hb hpb
    intro x hx
    have := hc x hx
    cases x <;> simp [DEv.isProgressEv, DEv.isCompleteEv] at this ⊢
  omega

/-- Claim C1 (confirmed): a handle's completion callback fires only after
every chunk it produced has been drained.  In one tick: (1) a completion
event for a handle is emitted only when that handle's outstanding counter,
as left by the progress-drain phase, is zero; (2) the tick first drains the
progressQueue completely, and every progress event of the tick precedes
every completion event of the tick; (3) on the worker side, every push of
one of the handle's chunks precedes the push of its completion record in
the job trace, and (4) each pushed chunk increments the handle's
outstanding counter: the counter grows by exactly the number of chunk
pushes the job performs. -/
theorem completion_gated_on_drained_chunks
    (fuel : Nat) (s s2 : GState) (ret : Bool) (evs : List DEv)
    (htick : onDownloadQueuePoll fuel s = some (s2, ret, evs)) :
    (∀ hid r rs, DEv.complete hid r rs ∈ evs →
        ((drainProgress s.progressQueue s.handles).1 hid).outstanding = 0)
  ∧ s2.progressQueue = []
  ∧ (∀ i j a b, evs.get? i = some a → evs.get? j = some b →
        a.isCompleteEv = true → b.isProgressEv = true → j < i)
  ∧ (∀ env h jb i a, (jobOps env h jb).get? i = some a → a.isPushChunkOf jb.id = true →
        ∃ k b, i < k ∧ (jobOps env h jb).get? k = some b ∧ b.isPushResultOf jb.id = true)
  ∧ (∀ env h jb, (curlThreadJob env h jb).handle.outstanding
        = h.outstanding + ((jobOps env h jb).countP WOp.isPushChunk)) := by
  cases hdr : drainResults (drainProgress s.progressQueue s.handles).1 fuel
      s.resultsQueue s.count with
  | none =>
      simp only [onDownloadQueuePoll, hdr] at htick
      cases htick
  | some out =>
      obtain ⟨q, c1, cevs, fr⟩ := out
      simp only [onDownloadQueuePoll, hdr, Option.some.injEq, Prod.mk.injEq] at htick
      obtain ⟨hs2, hret, hevs⟩ := htick
      have hfacts := drainResults_facts (drainProgress s.progressQueue s.handles).1
        fuel s.resultsQueue s.count (q, c1, cevs, fr) hdr
      refine ⟨?_, ?_, ?_, ?_, ?_⟩
      · intro hid r rs hmem
        rw [← hevs] at hmem
        rcases List.mem_append.1 hmem with h1 | h2
        · have := drainProgress_events s.progressQueue s.handles _ h1
          simp [DEv.isProgressEv] at this
        · exact hfacts.2 hid r rs h2
      · rw [← hs2]
      · intro i j a b ha hb hca hpb
        rw [← hevs] at ha hb
        exact progress_before_complete _ cevs (drainProgress_events s.progressQueue s.handles)
          hfacts.1 i j a b ha hb hca hpb
      · intro env h jb i a hget hpc
        rcases jobOps_shape env h jb with ⟨_, heq⟩ | ⟨_, A, B, F, hF, heq⟩
        · exfalso
          rw [heq] at hget
          have hmem := List.get?_mem hget
          simp at hmem
          subst hmem
          simp [WOp.isPushChunkOf] at hpc
        · have heq2 : jobOps env h jb
              = (WOp.start jb.id :: (A.map WOp.chunk ++ B.map WOp.chunk))
                ++ (WOp.pushResult jb.id jb.curlResult "curl-done" :: F.map WOp.chunk) := by
            rw [heq]
            simp
          rw [heq2] at hget
          have hibound : i < (WOp.start jb.id :: (A.map WOp.chunk ++ B.map WOp.chunk)).length := by
            refine get?_suffix_bound (WOp.isPushChunkOf jb.id) _ _ i a ?_ hget hpc
            intro x hx
            rcases List.mem_cons.1 hx with rfl | hx2
            · simp [WOp.isPushChunkOf]
            · obtain ⟨opc, hopc, rfl⟩ := List.mem_map.1 hx2
              obtain ⟨cid, rfl⟩ := hF opc hopc
              simp [WOp.isPushChunkOf]
          refine ⟨(WOp.start jb.id :: (A.map WOp.chunk ++ B.map WOp.chunk)).length,
            WOp.pushResult jb.id jb.curlResult "curl-done", hibound, ?_, by simp [WOp.isPushResultOf]⟩
          rw [heq2, List.get?_append_right (le_refl _)]
          simp
      · intro env h jb
        exact curlThreadJob_outstanding env h jb

/-- Claim C8 (confirmed): a dispatcher tick with both the progressQueue and
the resultsQueue empty invokes no callback, changes nothing - not a handle,
not a counter, not a queue - and reports continue exactly when the
live-handle count is positive. -/
theorem tick_empty_queues_noop (fuel : Nat) (s : GState)
    (hp : s.progressQueue = []) (hr : s.resultsQueue = []) :
    onDownloadQueuePoll fuel s = some (s, decide (0 < s.count), []) := by
  obtain ⟨jq, rq, pq, rec, hs, c, nid⟩ := s
  simp only at hp hr
  subst hp
  subst hr
  simp only [onDownloadQueuePoll, drainProgress]
  rw [drainResults_nil]
  simp

/-- An idle foreground state: no live handles, all queues empty. -/
def gIdle : GState :=
  { jobQueue := [], resultsQueue := [], progressQueue := [], recycleQueue := [],
    handles := fun _ => hNew, count := 0, nextHandleId := 0 }

theorem tick_empty_queues_noop_witness :
    onDownloadQueuePoll 0 gIdle = some (gIdle, false, []) := by
  have h := tick_empty_queues_noop 0 gIdle rfl rfl
  simpa [gIdle] using h

/-- What DownloadNew does to the state, as claim C9 lists it: the fresh
handle carries the submitted URL and callbacks with result, reason, byte
counters, current-item slot and outstanding counter all zeroed; the handle
id is the next fresh one; it is appended to the jobQueue; the live-handle
count is incremented; the periodic tick is armed exactly when the count
was zero at submission; the other queues are untouched. -/
def DownloadNewSpec (opts : DownloadOptions) (s : GState) : Prop :=
  ((DownloadNew opts s).1.handles (DownloadNew opts s).2.1)
      = { hasProgressCb := opts.hasProgressCb, hasCompleteCb := opts.hasCompleteCb,
          url := opts.url, result := 0, reason := none,
          bytesExpected := 0, bytesLoaded := 0, current := none, outstanding := 0 }
  ∧ (DownloadNew opts s).2.1 = s.nextHandleId
  ∧ (DownloadNew opts s).1.jobQueue = s.jobQueue ++ [s.nextHandleId]
  ∧ (DownloadNew opts s).1.count = s.count + 1
  ∧ ((DownloadNew opts s).2.2 = true ↔ s.count = 0)
  ∧ (DownloadNew opts s).1.resultsQueue = s.resultsQueue
  ∧ (DownloadNew opts s).1.progressQueue = s.progressQueue
  ∧ (DownloadNew opts s).1.recycleQueue = s.recycleQueue

/-- Claim C9 (confirmed): DownloadNew is a pure state transition (the model
is a total function: no blocking operation, it returns immediately)
satisfying DownloadNewSpec whenever the unsigned live-handle count does not
wrap. -/
theorem downloadNew_initialises_and_arms (opts : DownloadOptions) (s : GState)
    (hc : s.count + 1 < W32) : DownloadNewSpec opts s := by
  refine ⟨?_, rfl, rfl, ?_, ?_, rfl, rfl, rfl⟩
  · simp [DownloadNew, updateStore]
  · simp only [DownloadNew]
    exact Nat.mod_eq_of_lt hc
  · simp [DownloadNew]

/-- A sample submission. -/
def optsSample : DownloadOptions :=
  { url := "http://test/ok", hasProgressCb := true, hasCompleteCb := true }

theorem downloadNew_initialises_and_arms_witness :
    gIdle.count + 1 < W32 ∧ DownloadNewSpec optsSample gIdle :=
  ⟨by decide, downloadNew_initialises_and_arms optsSample gIdle (by decide)⟩

/-- Claim C6 amended (the code as it is): releasing a buffer does not
retain it - the worker recycle drain frees exactly the queued buffers and
leaves the recycle queue empty - and acquiring a buffer always freshly
allocates one of capacity kMaxChunksize whose id is new (at least the
malloc counter), whatever the recycle set held. -/
theorem acquire_fresh_release_freed :
    (∀ q : List Item,
        downloadRecycleProgressItems q = q.map fun it => ChunkOp.freeItem it.chunkId)
  ∧ (∀ hid segIdx : Nat, ∀ env : WEnv, ∀ h : Handle, ∀ count elements : Nat,
        (onCURLDownloadSegment hid segIdx env h count elements).env.recycleQueue = [])
  ∧ (∀ hid segIdx : Nat, ∀ env : WEnv, ∀ h : Handle, ∀ count elements cid sz : Nat,
        ChunkOp.allocItem cid sz ∈ (onCURLDownloadSegment hid segIdx env h count elements).ops →
        sz = kMaxChunksize ∧ env.nextChunkId ≤ cid)
  ∧ (∀ env : WEnv, ∀ h : Handle,
        (allocProgressItem env h).handle.current = some { id := env.nextChunkId, length := 0 }
      ∧ (allocProgressItem env h).ops = [ChunkOp.allocItem env.nextChunkId kMaxChunksize]
      ∧ (allocProgressItem env h).env.nextChunkId = env.nextChunkId + 1) :=
  ⟨downloadRecycleProgressItems_eq_map,
   fun hid segIdx env h count elements =>
     onCURLDownloadSegment_recycleQueue hid segIdx env h count elements,
   fun hid segIdx env h count elements cid sz hmem =>
     onCURLDownloadSegment_alloc hid segIdx env h count elements cid sz hmem,
   fun _ _ => ⟨rfl, rfl, rfl⟩⟩

/-- One item pending in the progressQueue for handle 1 while its completion
record waits in the resultsQueue. -/
def itemPend : Item :=
  { owner := 1, chunkId := 0, length := 5, bytesExpected := 10, bytesLoaded := 5 }

/-- Handle 1 as the worker left it: one outstanding chunk. -/
def hPend : Handle := { hNew with outstanding := 1 }

/-- Foreground state for the C1 witness tick. -/
def sPend : GState :=
  { jobQueue := [], resultsQueue := [1], progressQueue := [itemPend], recycleQueue := [],
    handles := fun _ => hPend, count := 1, nextHandleId := 2 }

/-- The state the C1 witness tick produces. -/
def sPendAfter : GState :=
  { jobQueue := [], resultsQueue := [], progressQueue := [],
    recycleQueue := [{ itemPend with owner := 0 }],
    handles := updateStore sPend.handles itemPend.owner
      { hPend with outstanding := hPend.outstanding - 1 },
    count := 0, nextHandleId := 2 }

theorem completion_gated_on_drained_chunks_witness :
    (∀ hid r rs,
        DEv.complete hid r rs ∈ [DEv.progress 1 5 5 10, DEv.complete 1 0 none] →
        ((drainProgress sPend.progressQueue sPend.handles).1 hid).outstanding = 0)
  ∧ sPendAfter.progressQueue = []
  ∧ (∀ i j a b,
        ([DEv.progress 1 5 5 10, DEv.complete 1 0 none] : List DEv).get? i = some a →
        ([DEv.progress 1 5 5 10, DEv.complete 1 0 none] : List DEv).get? j = some b →
        a.isCompleteEv = true → b.isProgressEv = true → j < i)
  ∧ (∀ env h jb i a, (jobOps env h jb).get? i = some a → a.isPushChunkOf jb.id = true →
        ∃ k b, i < k ∧ (jobOps env h jb).get? k = some b ∧ b.isPushResultOf jb.id = true)
  ∧ (∀ env h jb, (curlThreadJob env h jb).handle.outstanding
        = h.outstanding + ((jobOps env h jb).countP WOp.isPushChunk)) :=
  completion_gated_on_drained_chunks 1 sPend sPendAfter false
    [DEv.progress 1 5 5 10, DEv.complete 1 0 none] (by rfl)

/-- The second job of the C10 witness pair. -/
def jobSecond : Job := { id := 2, initOk := true, events := [], curlResult := 0 }

theorem second_transfer_starts_after_first_result_witness :
    ∃ k op2, k < 1
      ∧ (curlThreadRun wenv0 [(hNew, jobInitFail), (hNew, jobSecond)]).2.get? k = some op2
      ∧ op2.isPushResultOf jobInitFail.id = true :=
  second_transfer_starts_after_first_result wenv0 hNew hNew jobInitFail jobSecond
    (by decide) 1 (WOp.start 2) (by rfl) (by decide)
